import Mathlib

/-!
Verification of the `gmailfilters` bulkfilter command.

A shallow embedding of `src/gmailfilters/cmd/bulkfilter.py`.

Python strings are embedded as `List Char`; the argparse `type=` parser
functions `labelspec` and `flagspec` are pure functions on them.  The
stateful IMAP session is embedded as a trace semantics: every external
call the command makes (connect, login, select, search, flag/label
mutation, fetch, delete, expunge) becomes an `Ev` event appended to a
trace, and fatal exceptions become an `Err` value returned alongside the
trace.  External behaviour (which folders resolve, whether selecting a
folder succeeds, what a search returns) is supplied by a `Server`
environment record.
-/

namespace BulkFilterModel

/-- The fixed list of valid IMAP flags (`valid_flags`, bulkfilter.py
lines 13-20). -/
def valid_flags : List (List Char) :=
  [("SEEN").toList, ("ANSWERED").toList, ("FLAGGED").toList,
   ("DELETED").toList, ("DRAFT").toList, ("RECENT").toList]

/-- `labelspec(spec)` (bulkfilter.py lines 31-45): strip an optional
leading sign character, defaulting to add; return the sign and the rest
of the token.  `spec.startswith(c)` is embedded as a `head?` test and
`spec[1:]` as `drop 1`. -/
def labelspec (spec : List Char) : Char × List Char :=
  if spec.head? == some '-' then ('-', spec.drop 1)
  else if spec.head? == some '+' then ('+', spec.drop 1)
  else ('+', spec)

/-- The flag constants exported by the external `imapclient` library,
as an association list from attribute name to constant value
(`SEEN` maps to backslash-Seen and so on); used to embed
`getattr(imapclient, flag)` on the names in `valid_flags`. -/
def imapclient_constants : List (List Char × List Char) :=
  [(("SEEN").toList, ("\\Seen").toList),
   (("ANSWERED").toList, ("\\Answered").toList),
   (("FLAGGED").toList, ("\\Flagged").toList),
   (("DELETED").toList, ("\\Deleted").toList),
   (("DRAFT").toList, ("\\Draft").toList),
   (("RECENT").toList, ("\\Recent").toList)]

/-- `getattr(imapclient, flag)` embedded as a total lookup; on names
outside `imapclient_constants` it returns the name unchanged (the code
only applies it to members of `valid_flags`). -/
def imapclient_attr (flag : List Char) : List Char :=
  (imapclient_constants.lookup flag).getD flag

/-- The error raised by `flagspec` on an unknown flag:
`raise ValueError(flag)`, which argparse surfaces as the usage error the
spec calls `InvalidFlag`.  The payload is the rejected flag value. -/
inductive FlagError where
  | InvalidFlag : List Char → FlagError
deriving DecidableEq, Repr

/-- `flagspec(spec)` (bulkfilter.py lines 48-60): upper-case the token
(`spec.upper()` embedded as ASCII `Char.toUpper` on each character),
delegate to `labelspec`, reject values outside `valid_flags`, and
translate accepted values to the `imapclient` constant. -/
def flagspec (spec : List Char) : Except FlagError (Char × List Char) :=
  let upper := spec.map Char.toUpper
  let parsed := labelspec upper
  if parsed.2 ∈ valid_flags then
    Except.ok (parsed.1, imapclient_attr parsed.2)
  else
    Except.error (FlagError.InvalidFlag parsed.2)

/-- Modelled from the spec: the `chunker` helper is imported from
`gmailfilters/util.py`, which is not among the provided sources.  Spec,
section 4.3: "Partition the message-identifier sequence into fixed-size
batches (configurable batch size ...), preserving order".  Successive
slices of `n` elements are taken until the sequence is exhausted; a
chunk size of zero produces no batches. -/
def chunker (xs : List α) (n : Nat) : List (List α) :=
  if xs.isEmpty || n == 0 then [] else xs.take n :: chunker (xs.drop n) n
termination_by xs.length
decreasing_by
  rename_i h
  simp only [Bool.or_eq_true, List.isEmpty_eq_true, beq_iff_eq] at h
  push_neg at h
  have hlen : xs.length ≠ 0 := fun hz => h.1 (List.length_eq_zero.mp hz)
  simp only [List.length_drop]
  omega

/-- One external call made by the command, recorded in the run trace.
Message identifiers are `Nat`, folder names and queries are `String`,
flag and label values are `List Char` (the output type of `labelspec`
and `flagspec`). -/
inductive Ev where
  | connect : Ev
  | login : Ev
  | listFolders : Ev
  | selectFolder : String → Ev
  | logSelectFail : String → Ev
  | searchAll : String → Ev
  | gmailSearch : String → String → Ev
  | addFlags : List Nat → List (List Char) → Ev
  | removeFlags : List Nat → List (List Char) → Ev
  | addGmailLabels : List Nat → List (List Char) → Ev
  | removeGmailLabels : List Nat → List (List Char) → Ev
  | fetch : List Nat → Ev
  | printMsg : Nat → Ev
  | deleteMessages : List Nat → Ev
  | expunge : Ev
deriving DecidableEq, Repr

/-- The fatal exceptions `take_action` / `process_one_folder` can raise
(from `gmailfilters.exceptions`; the spec's error kinds of section 7). -/
inductive Err where
  | NoSuchAccount : Err
  | NoMatchingFolders : Err
  | InvalidOptions : Err
  | NoMatchingMessages : Err
deriving DecidableEq, Repr

/-- The parsed command-line arguments consumed by `BulkFilter`
(`args.show` is rendered `show_msgs` because `show` is a Lean keyword). -/
structure Args where
  account : String
  query : Option String
  fail_if_empty : Bool
  flag : List (Char × List Char)
  label : List (Char × List Char)
  delete : Bool
  trash : Bool
  show_msgs : Bool
  archive : Bool
  folders : List String
  chunksize : Nat
deriving DecidableEq, Repr

/-- The external environment of one run: the account names the
configuration knows, the folder resolution performed by
`select_folders` (a `BaseClientCommand` capability, modelled from the
spec, section 4.2), whether `select_folder` succeeds on a folder, and
the message identifiers returned by `search()` respectively
`gmail_search(query)` once a folder is selected. -/
structure Server where
  accounts : List String
  folderList : List String → List String
  selectOk : String → Bool
  searchAllMsgs : String → List Nat
  gmailSearchMsgs : String → String → List Nat

/-- The label the archive action removes (bulkfilter.py line 195):
backslash-Inbox. -/
def inboxLabel : List Char := ("\\Inbox").toList

/-- The label the trash action adds (bulkfilter.py line 207):
backslash-Trash. -/
def trashLabel : List Char := ("\\Trash").toList

/-- `BulkFilter.process_messages` (bulkfilter.py lines 174-215) as the
trace of external calls it makes on one chunk.  The six action blocks
run in source order: flags, labels, archive, show, trash, delete.
`sorted(res.keys())` over the dict returned by `fetch` is embedded as
an ascending insertion sort of the deduplicated chunk. -/
def process_messages (args : Args) (chunk : List Nat) : List Ev :=
  let add_flags := (args.flag.filter (fun p => p.1 == '+')).map Prod.snd
  let del_flags := (args.flag.filter (fun p => p.1 == '-')).map Prod.snd
  let add_labels := (args.label.filter (fun p => p.1 == '+')).map Prod.snd
  let del_labels := (args.label.filter (fun p => p.1 == '-')).map Prod.snd
  (if args.flag.isEmpty then [] else
    [Ev.addFlags chunk add_flags, Ev.removeFlags chunk del_flags]) ++
  (if args.label.isEmpty then [] else
    [Ev.addGmailLabels chunk add_labels, Ev.removeGmailLabels chunk del_labels]) ++
  (if args.archive then [Ev.removeGmailLabels chunk [inboxLabel]] else []) ++
  (if args.show_msgs then
    Ev.fetch chunk ::
      (List.insertionSort (fun a b => a ≤ b) chunk.dedup).map Ev.printMsg
   else []) ++
  (if args.trash then [Ev.addGmailLabels chunk [trashLabel]] else []) ++
  (if args.delete then [Ev.deleteMessages chunk, Ev.expunge] else [])

/-- `BulkFilter.process_one_folder` (bulkfilter.py lines 148-172): try
to select the folder; on failure log and return without error.  On
success search (all messages, or the gmail query), raise
`NoMatchingMessages` when `--fail-if-empty` is set and the result is
empty, otherwise dispatch `process_messages` once per chunk. -/
def process_one_folder (srv : Server) (args : Args) (folder : String) :
    List Ev × Option Err :=
  if srv.selectOk folder then
    let sev : Ev :=
      match args.query with
      | none => Ev.searchAll folder
      | some q => Ev.gmailSearch folder q
    let messages : List Nat :=
      match args.query with
      | none => srv.searchAllMsgs folder
      | some q => srv.gmailSearchMsgs folder q
    if args.fail_if_empty && messages.isEmpty then
      ([Ev.selectFolder folder, sev], some Err.NoMatchingMessages)
    else
      ([Ev.selectFolder folder, sev] ++
         ((chunker messages args.chunksize).map (process_messages args)).flatten,
       none)
  else
    ([Ev.selectFolder folder, Ev.logSelectFail folder], none)

/-- Modelled from the spec: `process_folders` is inherited from
`BaseClientCommand` (`gmailfilters/cmd/baseclient.py`, not among the
provided sources).  Spec, section 4.3: "For each resolved folder, in
order", run the per-folder processor; a raised exception propagates
and aborts the remaining folders. -/
def process_folders (srv : Server) (args : Args) :
    List String → List Ev × Option Err
  | [] => ([], none)
  | f :: rest =>
    let one := process_one_folder srv args f
    match one.2 with
    | some e => (one.1, some e)
    | none =>
      let more := process_folders srv args rest
      (one.1 ++ more.1, more.2)

/-- `BulkFilter.take_action` (bulkfilter.py lines 122-146): look up the
account (else `NoSuchAccount`), open the IMAP connection, log in,
resolve the folder list (`select_folders`, modelled as the
`Server.folderList` oracle plus a `listFolders` event), raise
`NoMatchingFolders` on an empty resolution, raise `InvalidOptions` when
`--fail-if-empty` is combined with more than one resolved folder, and
only then process the folders. -/
def take_action (srv : Server) (args : Args) : List Ev × Option Err :=
  if args.account ∈ srv.accounts then
    let tr0 := [Ev.connect, Ev.login, Ev.listFolders]
    let selected := srv.folderList args.folders
    if selected.isEmpty then
      (tr0, some Err.NoMatchingFolders)
    else if args.fail_if_empty && decide (selected.length > 1) then
      (tr0, some Err.InvalidOptions)
    else
      let pf := process_folders srv args selected
      (tr0 ++ pf.1, pf.2)
  else
    ([], some Err.NoSuchAccount)

/-- Events that mutate the mailbox: flag changes, label changes
(archive and trash act through labels), message deletion and expunge. -/
def isMutation : Ev → Bool
  | Ev.addFlags _ _ => true
  | Ev.removeFlags _ _ => true
  | Ev.addGmailLabels _ _ => true
  | Ev.removeGmailLabels _ _ => true
  | Ev.deleteMessages _ => true
  | Ev.expunge => true
  | _ => false

/-- Events that issue a search. -/
def isSearch : Ev → Bool
  | Ev.searchAll _ => true
  | Ev.gmailSearch _ _ => true
  | _ => false

/-- The two flag-mutation calls. -/
def isFlagCall : Ev → Bool
  | Ev.addFlags _ _ => true
  | Ev.removeFlags _ _ => true
  | _ => false

/-- Delete and expunge calls. -/
def isDeleteOrExpunge : Ev → Bool
  | Ev.deleteMessages _ => true
  | Ev.expunge => true
  | _ => false

/-- The message identifier a print event reports, if any. -/
def printIdOf : Ev → Option Nat
  | Ev.printMsg i => some i
  | _ => none

/-- The message identifiers printed by a trace, in print order. -/
def printed_ids (tr : List Ev) : List Nat :=
  tr.filterMap printIdOf

/-- Spec, section 4.4 step 1, in the spec's words: "add all FlagSpecs
with sign=add, then remove all with sign=remove (two separate calls;
remove always issued even if add list is empty when any flag spec
exists)". -/
def spec_flags_action (args : Args) (chunk : List Nat) : List Ev :=
  if args.flag.isEmpty then []
  else
    [Ev.addFlags chunk ((args.flag.filter (fun p => p.1 == '+')).map Prod.snd),
     Ev.removeFlags chunk ((args.flag.filter (fun p => p.1 == '-')).map Prod.snd)]

/-- Spec, section 4.4 step 2, in the spec's words: "add all ActionSpecs
with sign=add, remove all with sign=remove, same two-call pattern". -/
def spec_labels_action (args : Args) (chunk : List Nat) : List Ev :=
  if args.label.isEmpty then []
  else
    [Ev.addGmailLabels chunk ((args.label.filter (fun p => p.1 == '+')).map Prod.snd),
     Ev.removeGmailLabels chunk ((args.label.filter (fun p => p.1 == '-')).map Prod.snd)]

/-- Spec, section 4.4 step 3, in the spec's words: "remove the built-in
Inbox label from all messages in the batch". -/
def spec_archive_action (args : Args) (chunk : List Nat) : List Ev :=
  if args.archive then [Ev.removeGmailLabels chunk [inboxLabel]] else []

/-- Spec, section 4.4 step 4, in the spec's words: "fetch envelope +
label metadata for the batch and print, for every message, in ascending
identifier order". -/
def spec_show_action (args : Args) (chunk : List Nat) : List Ev :=
  if args.show_msgs then
    Ev.fetch chunk ::
      (List.insertionSort (fun a b => a ≤ b) chunk.dedup).map Ev.printMsg
  else []

/-- Spec, section 4.4 step 5, in the spec's words: "add the built-in
Trash label to all messages in the batch". -/
def spec_trash_action (args : Args) (chunk : List Nat) : List Ev :=
  if args.trash then [Ev.addGmailLabels chunk [trashLabel]] else []

/-- Spec, section 4.4 step 6, in the spec's words: "issue a delete call
on the batch, then immediately an expunge call against the whole
connection". -/
def spec_delete_action (args : Args) (chunk : List Nat) : List Ev :=
  if args.delete then [Ev.deleteMessages chunk, Ev.expunge] else []

/-- A concrete account name for closed instances. -/
def acct0 : String := "me"

/-- A concrete folder name for closed instances. -/
def folderA : String := "INBOX"

/-- A second concrete folder name for closed instances. -/
def folderB : String := "Spam"

/-- A server on which the folder tokens resolve to two folders, every
selection succeeds, and searches find messages. -/
def srv0 : Server where
  accounts := [acct0]
  folderList := fun _ => [folderA, folderB]
  selectOk := fun _ => true
  searchAllMsgs := fun _ => [1, 2, 3]
  gmailSearchMsgs := fun _ _ => [1]

/-- A server with a single resolved folder whose searches come back
empty. -/
def srvEmpty : Server where
  accounts := [acct0]
  folderList := fun _ => [folderA]
  selectOk := fun _ => true
  searchAllMsgs := fun _ => []
  gmailSearchMsgs := fun _ _ => []

/-- A server with a single resolved folder whose selection fails. -/
def srvBadSelect : Server where
  accounts := [acct0]
  folderList := fun _ => [folderA]
  selectOk := fun _ => false
  searchAllMsgs := fun _ => [1, 2, 3]
  gmailSearchMsgs := fun _ _ => [1]

/-- Arguments with `--fail-if-empty` set and no actions requested. -/
def args0 : Args where
  account := acct0
  query := none
  fail_if_empty := true
  flag := []
  label := []
  delete := false
  trash := false
  show_msgs := false
  archive := false
  folders := [folderA, folderB]
  chunksize := 100

/-- Arguments requesting one added and one removed flag. -/
def argsFlag : Args :=
  { args0 with
      fail_if_empty := false
      flag := [('+', ("\\Seen").toList), ('-', ("\\Flagged").toList)] }

/-- Arguments requesting deletion. -/
def argsDelete : Args :=
  { args0 with fail_if_empty := false, delete := true }

/-- Arguments requesting display of matching messages. -/
def argsShow : Args :=
  { args0 with fail_if_empty := false, show_msgs := true }

theorem chunker_nil (n : Nat) : chunker ([] : List α) n = [] := by
  rw [chunker]
  simp

theorem chunker_pos (xs : List α) (n : Nat) (hx : xs ≠ []) (hn : 0 < n) :
    chunker xs n = xs.take n :: chunker (xs.drop n) n := by
  rw [chunker]
  have h1 : xs.isEmpty = false := by
    cases hxe : xs.isEmpty
    · rfl
    · exact absurd (List.isEmpty_eq_true.mp hxe) hx
  have h2 : (n == 0) = false := by
    simp
    omega
  simp [h1, h2]

theorem chunker_flatten (n : Nat) (hn : 0 < n) (xs : List α) :
    (chunker xs n).flatten = xs := by
  by_cases hx : xs = []
  · subst hx
    simp [chunker_nil]
  · rw [chunker_pos xs n hx hn, List.flatten_cons, chunker_flatten n hn (xs.drop n),
      List.take_append_drop]
termination_by xs.length
decreasing_by
  have hlen : xs.length ≠ 0 := fun hz => hx (List.length_eq_zero.mp hz)
  simp only [List.length_drop]
  omega

theorem chunker_length_le (n : Nat) (hn : 0 < n) (xs : List α) :
    ∀ c ∈ chunker xs n, c.length ≤ n := by
  intro c hc
  by_cases hx : xs = []
  · subst hx
    rw [chunker_nil] at hc
    exact absurd hc (List.not_mem_nil c)
  · rw [chunker_pos xs n hx hn] at hc
    rcases List.mem_cons.mp hc with h | h
    · subst h
      simp
    · exact chunker_length_le n hn (xs.drop n) c h
termination_by xs.length
decreasing_by
  have hlen : xs.length ≠ 0 := fun hz => hx (List.length_eq_zero.mp hz)
  simp only [List.length_drop]
  omega

theorem chunker_ne_nil_mem (n : Nat) (hn : 0 < n) (xs : List α) (hx : xs ≠ []) :
    chunker xs n ≠ [] := by
  rw [chunker_pos xs n hx hn]
  exact List.cons_ne_nil _ _

theorem chunker_dropLast_length (n : Nat) (hn : 0 < n) (xs : List α) :
    ∀ c ∈ (chunker xs n).dropLast, c.length = n := by
  intro c hc
  by_cases hx : xs = []
  · subst hx
    rw [chunker_nil] at hc
    exact absurd hc (List.not_mem_nil c)
  · rw [chunker_pos xs n hx hn] at hc
    by_cases hrest : xs.drop n = []
    · rw [hrest, chunker_nil] at hc
      simp at hc
    · rw [List.dropLast_cons_of_ne_nil (chunker_ne_nil_mem n hn (xs.drop n) hrest)] at hc
      rcases List.mem_cons.mp hc with h | h
      · subst h
        have hlong : n ≤ xs.length := by
          by_contra hshort
          push_neg at hshort
          exact hrest (List.drop_eq_nil_of_le (Nat.le_of_lt hshort))
        exact List.length_take_of_le hlong
      · exact chunker_dropLast_length n hn (xs.drop n) c h
termination_by xs.length
decreasing_by
  have hlen : xs.length ≠ 0 := fun hz => hx (List.length_eq_zero.mp hz)
  simp only [List.length_drop]
  omega

theorem char_toNat_ofNat_valid (m : Nat) (h1 : 65 ≤ m) (h2 : m ≤ 90) :
    (Char.ofNat m).toNat = m := by
  have hv : m.isValidChar := Or.inl (by omega)
  unfold Char.ofNat
  rw [dif_pos hv]
  simp [Char.ofNatAux, Char.toNat, UInt32.toNat]

/-- ASCII upper-casing fixes every character below the code point of
the letter A; in particular the sign characters used by `labelspec`. -/
theorem toUpper_eq_iff_of_symbol (c d : Char) (hd : d.toNat < 65) :
    (Char.toUpper c = d) ↔ (c = d) := by
  constructor
  · intro h
    simp only [Char.toUpper] at h
    split at h
    · rename_i hcond
      exfalso
      have h2 := congrArg Char.toNat h
      rw [char_toNat_ofNat_valid (c.toNat - 32) (by omega) (by omega)] at h2
      omega
    · exact h
  · intro h
    subst h
    simp only [Char.toUpper]
    split
    · rename_i hcond
      omega
    · rfl

/-- Upper-casing a token commutes with sign stripping: the sign is
unchanged and the value is upper-cased. -/
theorem labelspec_map_toUpper (t : List Char) :
    labelspec (t.map Char.toUpper) =
      ((labelspec t).1, (labelspec t).2.map Char.toUpper) := by
  cases t with
  | nil => rfl
  | cons c cs =>
    by_cases h1 : c = '-'
    · subst h1
      rfl
    · by_cases h2 : c = '+'
      · subst h2
        rfl
      · have hu1 : Char.toUpper c ≠ '-' := fun h =>
          h1 ((toUpper_eq_iff_of_symbol c '-' (by decide)).mp h)
        have hu2 : Char.toUpper c ≠ '+' := fun h =>
          h2 ((toUpper_eq_iff_of_symbol c '+' (by decide)).mp h)
        simp [labelspec, h1, h2, hu1, hu2]

/-- C2: for every token, the label-spec parser sends a plus-prefixed
token to the add action on the remainder, a minus-prefixed token to the
remove action on the remainder, and an unprefixed token to the add
action on the whole token; being a total function it fails on no input
(the add action is rendered as the plus character, remove as the minus
character, exactly as `labelspec` returns them). -/
theorem c2_labelspec_sign_split (t : List Char) :
    labelspec ('+' :: t) = ('+', t) ∧
    labelspec ('-' :: t) = ('-', t) ∧
    (t.head? ≠ some '+' → t.head? ≠ some '-' → labelspec t = ('+', t)) := by
  refine ⟨by simp [labelspec], by simp [labelspec], fun h1 h2 => ?_⟩
  simp [labelspec, h1, h2]

theorem c2_labelspec_sign_split_witness :
    labelspec ('+' :: ("Work").toList) = ('+', ("Work").toList) ∧
    labelspec ('-' :: ("Work").toList) = ('-', ("Work").toList) ∧
    labelspec (("Work").toList) = ('+', ("Work").toList) := by
  have h := c2_labelspec_sign_split (("Work").toList)
  exact ⟨h.1, h.2.1, h.2.2 (by decide) (by decide)⟩

/-- C3: for every token whose value -- the token after sign stripping,
compared case-insensitively via ASCII upper-casing -- lies outside the
fixed set `valid_flags`, `flagspec` fails with the `InvalidFlag` error
carrying that value; for every token whose value lies in the set it
succeeds with the sign of the original token and the canonical
`imapclient` flag constant. -/
theorem c3_flagspec_validation (t : List Char) :
    ((labelspec t).2.map Char.toUpper ∉ valid_flags →
      flagspec t =
        Except.error (FlagError.InvalidFlag ((labelspec t).2.map Char.toUpper))) ∧
    ((labelspec t).2.map Char.toUpper ∈ valid_flags →
      flagspec t =
        Except.ok ((labelspec t).1, imapclient_attr ((labelspec t).2.map Char.toUpper))) := by
  have hcomm := labelspec_map_toUpper t
  constructor
  · intro hmem
    simp only [flagspec, hcomm]
    rw [if_neg hmem]
  · intro hmem
    simp only [flagspec, hcomm]
    rw [if_pos hmem]

theorem c3_flagspec_validation_witness :
    flagspec (("-seen").toList) = Except.ok ('-', ("\\Seen").toList) ∧
    flagspec (("junk").toList) =
      Except.error (FlagError.InvalidFlag (("JUNK").toList)) := by
  constructor
  · have h := (c3_flagspec_validation (("-seen").toList)).2 (by decide)
    rw [h]
    rfl
  · have h := (c3_flagspec_validation (("junk").toList)).1 (by decide)
    rw [h]
    rfl

/-- C4: for every message-identifier sequence and every positive chunk
size, the chunking used by `process_one_folder` is exhaustive and
order-preserving -- flattening the batches reproduces the sequence --
every batch is no longer than the chunk size, and every batch except
possibly the last has exactly the chunk size. -/
theorem c4_chunker_props (xs : List Nat) (n : Nat) (hn : 0 < n) :
    (chunker xs n).flatten = xs ∧
    (∀ c ∈ chunker xs n, c.length ≤ n) ∧
    (∀ c ∈ (chunker xs n).dropLast, c.length = n) :=
  ⟨chunker_flatten n hn xs, chunker_length_le n hn xs, chunker_dropLast_length n hn xs⟩

theorem c4_chunker_props_witness :
    0 < 2 ∧
    ((chunker [3, 1, 4, 1, 5] 2).flatten = [3, 1, 4, 1, 5] ∧
     (∀ c ∈ chunker [3, 1, 4, 1, 5] 2, c.length ≤ 2) ∧
     (∀ c ∈ (chunker [3, 1, 4, 1, 5] 2).dropLast, c.length = 2)) :=
  ⟨by decide, c4_chunker_props [3, 1, 4, 1, 5] 2 (by decide)⟩

/-- C5: when `--fail-if-empty` is set, the single resolved folder
selects successfully, and its search comes back empty, the run returns
the `NoMatchingMessages` error and its trace contains no mutation
call. -/
theorem c5_fail_if_empty_no_mutation (srv : Server) (args : Args) (f : String)
    (hacct : args.account ∈ srv.accounts)
    (hsel : srv.folderList args.folders = [f])
    (hok : srv.selectOk f = true)
    (hfail : args.fail_if_empty = true)
    (hempty : (match args.query with
               | none => srv.searchAllMsgs f
               | some q => srv.gmailSearchMsgs f q) = []) :
    (take_action srv args).2 = some Err.NoMatchingMessages ∧
    ∀ e ∈ (take_action srv args).1, isMutation e = false := by
  have hone : process_one_folder srv args f =
      ([Ev.selectFolder f,
        match args.query with
        | none => Ev.searchAll f
        | some q => Ev.gmailSearch f q], some Err.NoMatchingMessages) := by
    rw [process_one_folder, if_pos hok]
    simp only [hempty, hfail, List.isEmpty_nil, Bool.and_self, if_true]
  have hta : take_action srv args =
      ([Ev.connect, Ev.login, Ev.listFolders, Ev.selectFolder f,
        match args.query with
        | none => Ev.searchAll f
        | some q => Ev.gmailSearch f q], some Err.NoMatchingMessages) := by
    rw [take_action, if_pos hacct]
    simp only [hsel]
    simp only [process_folders, hone, List.isEmpty_cons, List.length_cons,
      List.length_nil]
    norm_num
  rw [hta]
  refine ⟨rfl, ?_⟩
  intro e he
  cases hq : args.query with
  | none =>
    rw [hq] at he
    simp only [List.mem_cons, List.not_mem_nil, or_false] at he
    rcases he with rfl | rfl | rfl | rfl | rfl <;> rfl
  | some q =>
    rw [hq] at he
    simp only [List.mem_cons, List.not_mem_nil, or_false] at he
    rcases he with rfl | rfl | rfl | rfl | rfl <;> rfl

theorem c5_fail_if_empty_no_mutation_witness :
    (take_action srvEmpty args0).2 = some Err.NoMatchingMessages ∧
    ∀ e ∈ (take_action srvEmpty args0).1, isMutation e = false :=
  c5_fail_if_empty_no_mutation srvEmpty args0 folderA (by decide) rfl rfl rfl rfl

/-- C6: for every batch, when at least one flag spec is present the
dispatcher issues exactly two flag calls, first the add-flags call with
all add-signed flags and then the remove-flags call with all
remove-signed flags (the remove call being issued even when the remove
list is empty); when no flag spec is present neither call is issued. -/
theorem c6_flag_calls_exactly_two (args : Args) (chunk : List Nat) :
    (args.flag ≠ [] →
      (process_messages args chunk).filter isFlagCall =
        [Ev.addFlags chunk ((args.flag.filter (fun p => p.1 == '+')).map Prod.snd),
         Ev.removeFlags chunk ((args.flag.filter (fun p => p.1 == '-')).map Prod.snd)]) ∧
    (args.flag = [] → (process_messages args chunk).filter isFlagCall = []) := by
  constructor
  · intro h
    have hne : args.flag.isEmpty = false := by
      cases hfe : args.flag.isEmpty
      · rfl
      · exact absurd (List.isEmpty_eq_true.mp hfe) h
    simp only [process_messages, hne, Bool.false_eq_true, if_false, List.filter_append]
    split_ifs <;>
      simp [isFlagCall, List.filter_map, Function.comp]
  · intro h
    simp only [process_messages, h, List.isEmpty_nil, if_true, List.filter_append]
    split_ifs <;>
      simp [isFlagCall, List.filter_map, Function.comp]

theorem c6_flag_calls_exactly_two_witness :
    (process_messages argsFlag [7, 8]).filter isFlagCall =
      [Ev.addFlags [7, 8] [("\\Seen").toList],
       Ev.removeFlags [7, 8] [("\\Flagged").toList]] := by
  have h := (c6_flag_calls_exactly_two argsFlag [7, 8]).1 (by decide)
  rw [h]
  rfl

/-- C7: the batch action dispatcher applies the requested actions
independently in the fixed order flags, labels, archive, show, trash,
delete: its trace is the concatenation of the six spec-side sub-action
traces in exactly that order (archive removing the built-in Inbox
label, trash adding the built-in Trash label). -/
theorem c7_dispatch_fixed_order (args : Args) (chunk : List Nat) :
    process_messages args chunk =
      spec_flags_action args chunk ++ spec_labels_action args chunk ++
      spec_archive_action args chunk ++ spec_show_action args chunk ++
      spec_trash_action args chunk ++ spec_delete_action args chunk := rfl

/-- C8: when `--delete` is set the dispatcher ends every batch trace
with a delete call on that batch immediately followed by one expunge
call, and no other delete or expunge call occurs in the batch trace. -/
theorem c8_delete_then_expunge (args : Args) (chunk : List Nat)
    (h : args.delete = true) :
    ∃ pre : List Ev,
      process_messages args chunk = pre ++ [Ev.deleteMessages chunk, Ev.expunge] ∧
      ∀ e ∈ pre, isDeleteOrExpunge e = false := by
  refine ⟨(if args.flag.isEmpty then [] else
      [Ev.addFlags chunk ((args.flag.filter (fun p => p.1 == '+')).map Prod.snd),
       Ev.removeFlags chunk ((args.flag.filter (fun p => p.1 == '-')).map Prod.snd)]) ++
    (if args.label.isEmpty then [] else
      [Ev.addGmailLabels chunk ((args.label.filter (fun p => p.1 == '+')).map Prod.snd),
       Ev.removeGmailLabels chunk ((args.label.filter (fun p => p.1 == '-')).map Prod.snd)]) ++
    (if args.archive then [Ev.removeGmailLabels chunk [inboxLabel]] else []) ++
    (if args.show_msgs then
      Ev.fetch chunk ::
        (List.insertionSort (fun a b => a ≤ b) chunk.dedup).map Ev.printMsg
     else []) ++
    (if args.trash then [Ev.addGmailLabels chunk [trashLabel]] else []), ?_, ?_⟩
  · simp only [process_messages, h, if_true, List.append_assoc]
  · intro e he
    simp only [List.mem_append] at he
    rcases he with (((h1 | h2) | h3) | h4) | h5
    · split at h1 <;> simp at h1
      rcases h1 with rfl | rfl <;> rfl
    · split at h2 <;> simp at h2
      rcases h2 with rfl | rfl <;> rfl
    · split at h3 <;> simp at h3
      subst h3
      rfl
    · split at h4 <;> simp at h4
      rcases h4 with rfl | ⟨i, hi, rfl⟩ <;> rfl
    · split at h5 <;> simp at h5
      subst h5
      rfl

theorem c8_delete_then_expunge_witness :
    ∃ pre : List Ev,
      process_messages argsDelete [4, 9] =
        pre ++ [Ev.deleteMessages [4, 9], Ev.expunge] ∧
      ∀ e ∈ pre, isDeleteOrExpunge e = false :=
  c8_delete_then_expunge argsDelete [4, 9] rfl

theorem filterMap_printIdOf_comp (l : List Nat) :
    l.filterMap (printIdOf ∘ Ev.printMsg) = l := by
  have hsome : (printIdOf ∘ Ev.printMsg) = some := funext (fun x => rfl)
  rw [hsome, List.filterMap_some]

/-- C9: when `--show` is set the batch trace prints the fetched
messages in ascending identifier order whatever the order inside the
batch: the printed identifiers are sorted and are a permutation of the
distinct identifiers of the batch. -/
theorem c9_show_prints_sorted (args : Args) (chunk : List Nat)
    (h : args.show_msgs = true) :
    List.Sorted (fun a b => a ≤ b) (printed_ids (process_messages args chunk)) ∧
    (printed_ids (process_messages args chunk)).Perm chunk.dedup := by
  have hp : printed_ids (process_messages args chunk) =
      List.insertionSort (fun a b => a ≤ b) chunk.dedup := by
    simp only [process_messages, printed_ids, h, if_true, List.filterMap_append]
    split_ifs <;>
      simp [printIdOf, filterMap_printIdOf_comp]
  rw [hp]
  exact ⟨List.sorted_insertionSort _ _, List.perm_insertionSort _ _⟩

theorem c9_show_prints_sorted_witness :
    (List.Sorted (fun a b => a ≤ b)
      (printed_ids (process_messages argsShow [50, 10])) ∧
     (printed_ids (process_messages argsShow [50, 10])).Perm
       (List.dedup [50, 10])) ∧
    printed_ids (process_messages argsShow [50, 10]) = [10, 50] := by
  refine ⟨c9_show_prints_sorted argsShow [50, 10] rfl, ?_⟩
  rfl

/-- C10: when `--fail-if-empty` is set with a single resolved folder
whose selection fails, the run raises no error at all (in particular
not `NoMatchingMessages`): the selection failure is logged, no search
is issued, and no mutation is issued. -/
theorem c10_select_failure_nonfatal (srv : Server) (args : Args) (f : String)
    (hacct : args.account ∈ srv.accounts)
    (hsel : srv.folderList args.folders = [f])
    (hbad : srv.selectOk f = false)
    (_hfail : args.fail_if_empty = true) :
    (take_action srv args).2 = none ∧
    Ev.logSelectFail f ∈ (take_action srv args).1 ∧
    (∀ e ∈ (take_action srv args).1, isSearch e = false) ∧
    (∀ e ∈ (take_action srv args).1, isMutation e = false) := by
  have hone : process_one_folder srv args f =
      ([Ev.selectFolder f, Ev.logSelectFail f], none) := by
    rw [process_one_folder, if_neg]
    rw [hbad]
    exact Bool.false_ne_true
  have hta : take_action srv args =
      ([Ev.connect, Ev.login, Ev.listFolders, Ev.selectFolder f,
        Ev.logSelectFail f], none) := by
    rw [take_action, if_pos hacct]
    simp only [hsel]
    simp only [process_folders, hone, List.isEmpty_cons, List.length_cons,
      List.length_nil]
    norm_num
  rw [hta]
  refine ⟨rfl, by simp, ?_, ?_⟩ <;>
    (intro e he
     simp only [List.mem_cons, List.not_mem_nil, or_false] at he
     rcases he with rfl | rfl | rfl | rfl | rfl <;> rfl)

theorem c10_select_failure_nonfatal_witness :
    (take_action srvBadSelect args0).2 = none ∧
    Ev.logSelectFail folderA ∈ (take_action srvBadSelect args0).1 ∧
    (∀ e ∈ (take_action srvBadSelect args0).1, isSearch e = false) ∧
    (∀ e ∈ (take_action srvBadSelect args0).1, isMutation e = false) :=
  c10_select_failure_nonfatal srvBadSelect args0 folderA (by decide) rfl rfl rfl

/-- C1, amended: when the account exists, `--fail-if-empty` is set and
the folder tokens resolve to more than one folder, the run fails with
`InvalidOptions` before any search or mutation activity -- but after
the connection is opened, the login is performed and the folder list is
resolved, whose events the trace already holds. -/
theorem c1_invalid_options_after_connect_login (srv : Server) (args : Args)
    (hacct : args.account ∈ srv.accounts)
    (hfail : args.fail_if_empty = true)
    (hsel : 1 < (srv.folderList args.folders).length) :
    take_action srv args =
      ([Ev.connect, Ev.login, Ev.listFolders], some Err.InvalidOptions) ∧
    Ev.connect ∈ (take_action srv args).1 ∧
    Ev.login ∈ (take_action srv args).1 ∧
    (∀ e ∈ (take_action srv args).1, isSearch e = false) ∧
    (∀ e ∈ (take_action srv args).1, isMutation e = false) := by
  have hne : (srv.folderList args.folders).isEmpty = false := by
    cases hxe : (srv.folderList args.folders).isEmpty
    · rfl
    · have := List.isEmpty_eq_true.mp hxe
      rw [this] at hsel
      simp at hsel
  have hta : take_action srv args =
      ([Ev.connect, Ev.login, Ev.listFolders], some Err.InvalidOptions) := by
    rw [take_action, if_pos hacct]
    simp [hne, hfail, hsel]
  rw [hta]
  refine ⟨rfl, by simp, by simp, ?_, ?_⟩ <;>
    (intro e he
     simp only [List.mem_cons, List.not_mem_nil, or_false] at he
     rcases he with rfl | rfl | rfl <;> rfl)

theorem c1_invalid_options_after_connect_login_witness :
    take_action srv0 args0 =
      ([Ev.connect, Ev.login, Ev.listFolders], some Err.InvalidOptions) ∧
    Ev.connect ∈ (take_action srv0 args0).1 ∧
    Ev.login ∈ (take_action srv0 args0).1 ∧
    (∀ e ∈ (take_action srv0 args0).1, isSearch e = false) ∧
    (∀ e ∈ (take_action srv0 args0).1, isMutation e = false) :=
  c1_invalid_options_after_connect_login srv0 args0 (by decide) rfl (by decide)

/-- C1, counterexample to the claim as stated: on a server resolving
the folder tokens to two folders with `--fail-if-empty` set, the run
does fail with `InvalidOptions`, but the connect and login events are
already in its trace, refuting "no network connection is opened, no
login is performed ... before that failure". -/
theorem c1_counterexample_connect_login_before_failure :
    (take_action srv0 args0).2 = some Err.InvalidOptions ∧
    Ev.connect ∈ (take_action srv0 args0).1 ∧
    Ev.login ∈ (take_action srv0 args0).1 := by
  refine ⟨rfl, ?_, ?_⟩ <;> simp [take_action, srv0, args0, acct0]

end BulkFilterModel
